import Mathlib

/-!
Shallow embedding of the local-session persistence, normalization,
input-sanitization, rest-timer and measurement logic of the gum-mini-app
repository (src/src/App.tsx, src/src/exerciseCatalog.ts, plus the earlier
revisions src/unnamed/part_000 and src/unnamed/part_001).

Conventions of the embedding:
* JavaScript values that can appear after a successful `JSON.parse` are
  modelled by the inductive `JsValue` (JSON numbers are modelled as
  integers; the code under verification only ever coerces them to strings
  or tests their truthiness).
* The result of `localStorage.getItem` + `JSON.parse` is modelled by
  `RawSession`: the stored text may be absent/empty (`missing`), fail to
  parse (`parseError`) or parse to a `JsValue` (`value`).
* `createId()` (crypto.randomUUID / Date.now fallback) is modelled by an
  explicit id supply `gen : Nat → String` together with a counter that is
  threaded through every function that allocates ids, in exactly the
  evaluation order of the source.
* Strings are Lean `String`s; `String.prototype.slice(0, n)` is `strTake`,
  `trim()` is `strTrim`, and the regex `/[^\d]/g` removal is a filter
  by `Char.isDigit` (JS `\d` is exactly 0-9).
-/

namespace Gum

/-- A JavaScript value as produced by `JSON.parse`. -/
inductive JsValue where
  | null
  | bool (b : Bool)
  | num (n : Int)
  | str (s : String)
  | arr (elems : List JsValue)
  | obj (fields : List (String × JsValue))

mutual

/-- JavaScript `String(v)` coercion. -/
def jsToString : JsValue → String
  | .null => "null"
  | .bool b => if b then "true" else "false"
  | .num n => toString n
  | .str s => s
  | .arr xs => String.intercalate "," (jsElemStrings xs)
  | .obj _ => "[object Object]"

/-- Array elements under `Array.prototype.toString`: `null` prints as "". -/
def jsElemStrings : List JsValue → List String
  | [] => []
  | .null :: vs => "" :: jsElemStrings vs
  | v :: vs => jsToString v :: jsElemStrings vs

end

/-- `String(x ?? "")` where `x` is a possibly-absent (undefined) field. -/
def jsOrEmptyString : Option JsValue → String
  | none => ""
  | some .null => ""
  | some v => jsToString v

/-- JavaScript truthiness `Boolean(x)` of a possibly-absent field. -/
def jsTruthy : Option JsValue → Bool
  | none => false
  | some .null => false
  | some (.bool b) => b
  | some (.num n) => decide (n ≠ 0)
  | some (.str s) => !s.isEmpty
  | some (.arr _) => true
  | some (.obj _) => true

/-- `typeof x === "string" ? x : String(x ?? "")` (set/drop-set fields). -/
def coerceToString (x : Option JsValue) : String :=
  match x with
  | some (.str s) => s
  | x => jsOrEmptyString x

/-- Field access `o.key` on a parsed JS object (absent key is `none`).
The field lists model objects produced by `JSON.parse`, whose keys are
unique, so first-match lookup is exact. -/
def getField (fields : List (String × JsValue)) (key : String) : Option JsValue :=
  fields.lookup key

/-- `parseObject` (App.tsx:231): plain objects only — `null`, arrays and
primitives are rejected. -/
def parseObject : JsValue → Option (List (String × JsValue))
  | .obj fields => some fields
  | _ => none

/-- `s.slice(0, n)` on a JS string, modelled character-wise. -/
def strTake (s : String) (n : Nat) : String :=
  String.mk (s.data.take n)

/-- `s.trim()`: strip leading and trailing whitespace, modelled
character-wise. -/
def strTrim (s : String) : String :=
  String.mk
    (((s.data.dropWhile (·.isWhitespace)).reverse.dropWhile
      (·.isWhitespace)).reverse)

/-- Digit filter + length cap applied by `sanitizeNumber` to the string
form of its argument. -/
def sanitizeDigits (s : String) (maxDigits : Nat) : String :=
  String.mk ((s.data.filter (·.isDigit)).take maxDigits)

/-- `sanitizeNumber` (App.tsx:225): `String(value ?? "")`, strip
non-digits, truncate to `maxDigits`. -/
def sanitizeNumber (value : Option JsValue) (maxDigits : Nat) : String :=
  sanitizeDigits (jsOrEmptyString value) maxDigits

/-- `s` consists solely of decimal digits. -/
def isDigitString (s : String) : Bool :=
  s.data.all (·.isDigit)

/-- A digits-only string of length at most `n`. -/
def DigitCap (s : String) (n : Nat) : Prop :=
  isDigitString s = true ∧ s.length ≤ n

instance (s : String) (n : Nat) : Decidable (DigitCap s n) := by
  unfold DigitCap; infer_instance

theorem sanitizeDigits_digitCap (s : String) (n : Nat) :
    DigitCap (sanitizeDigits s n) n := by
  constructor
  · simp only [sanitizeDigits, isDigitString, List.all_eq_true]
    intro c hc
    have hc' := List.mem_of_mem_take hc
    exact (List.mem_filter.mp hc').2
  · show (String.mk ((s.data.filter (·.isDigit)).take n)).length ≤ n
    simp [String.length, List.length_take]

theorem sanitizeDigits_of_digitCap {s : String} {n : Nat}
    (h : DigitCap s n) : sanitizeDigits s n = s := by
  obtain ⟨hdig, hlen⟩ := h
  unfold sanitizeDigits
  have hfilter : s.data.filter (·.isDigit) = s.data := by
    apply List.filter_eq_self.mpr
    intro c hc
    simp only [isDigitString, List.all_eq_true] at hdig
    exact hdig c hc
  rw [hfilter, List.take_of_length_le hlen]

/-! ## Data model (App.tsx types, v7 revision) -/

/-- `DropSet` (App.tsx:49). -/
structure DropSet where
  id : String
  weight : String
  reps : String
  deriving Repr, DecidableEq

/-- `WorkoutSet` (App.tsx:55). -/
structure WorkoutSet where
  id : String
  weight : String
  reps : String
  speed : String
  dropSets : List DropSet
  deriving Repr, DecidableEq

/-- `SessionExercise` (App.tsx:63). -/
structure SessionExercise where
  id : String
  name : String
  note : String
  expanded : Bool
  sets : List WorkoutSet
  deriving Repr, DecidableEq

/-- `SessionByPlan` (App.tsx:71): a record with exactly the five known
plan keys. -/
structure SessionByPlan where
  upper : List SessionExercise
  lower : List SessionExercise
  fullbody : List SessionExercise
  cardio : List SessionExercise
  custom : List SessionExercise
  deriving Repr, DecidableEq

/-! ## Exercise catalog (exerciseCatalog.ts)

`getExerciseDefinition` is only ever used through `?.name`, and the
name-keyed map sends each catalog name to a definition whose `.name`
field is that same key, so the embedding keeps just the names. -/

/-- The `name` fields of `exerciseCatalog` (exerciseCatalog.ts:54-536),
in source order. -/
def catalogNames : List String := [
  "Жим штанги лежа", "Жим гантелей лежа", "Жим гантелей на наклонной скамье",
  "Отжимания от пола", "Отжимания на брусьях", "Сведение рук в кроссовере",
  "Сведение рук в нижнем кроссовере", "Сведение одной рукой в кроссовере",
  "Жим в тренажере Смита", "Жим на наклонной скамье в Смите",
  "Тяга верхнего блока широким хватом", "Тяга горизонтального блока сидя",
  "Тяга штанги в наклоне", "Тяга в наклоне в Смите", "Тяга Т-грифа",
  "Подтягивания обратным хватом", "Тяга каната к лицу",
  "Жим штанги над головой", "Жим над головой в Смите", "Жим гантелей сидя",
  "Жим Арнольда", "Махи гантелями в стороны", "Подъем штанги на бицепс",
  "Сгибание рук с гантелями", "Разгибание рук в верхнем блоке",
  "Жим лежа узким хватом", "Жим узким хватом в Смите",
  "Приседания со штангой", "Приседания в Смите", "Фронтальные приседания",
  "Гакк-присед", "Жим ногами", "Жим ногами в Смите", "Выпады со штангой",
  "Шагающие выпады со штангой", "Болгарские приседания в Смите",
  "Румынская тяга", "Становая тяга сумо", "Тяга на прямых ногах",
  "Тяга на прямых ногах в Смите", "Ягодичный мостик со штангой",
  "Ягодичный мостик на полу со штангой", "Гиперэкстензия",
  "Сгибание ног лежа", "Разгибание ног в тренажере", "Отведение ноги назад",
  "Разгибание бедра с лентой", "Подъем на носки стоя", "Подъем на носки сидя",
  "Гоблет-присед", "Наклоны со штангой", "Бег на дорожке (легкий темп)",
  "Бег на дорожке (интенсивный)", "Ходьба на дорожке", "Велотренажер",
  "Эллиптический тренажер", "Гребной тренажер", "Скакалка", "Step Mill",
  "Stairmaster", "Бег/ходьба по пересеченной местности"]

/-- `legacyAliasByName` (exerciseCatalog.ts:558-595). -/
def legacyAliasByName : List (String × String) := [
  ("Жим лежа", "Жим штанги лежа"),
  ("Тяга верхнего блока", "Тяга верхнего блока широким хватом"),
  ("Тяга горизонтального блока", "Тяга горизонтального блока сидя"),
  ("Жим гантелей сидя", "Жим гантелей сидя"),
  ("Тяга к подбородку", "Тяга каната к лицу"),
  ("Разведение гантелей в стороны", "Махи гантелями в стороны"),
  ("Французский жим", "Жим лежа узким хватом"),
  ("Разгибания рук в блоке", "Разгибание рук в верхнем блоке"),
  ("Сгибания рук с гантелями", "Сгибание рук с гантелями"),
  ("Кроссовер", "Сведение рук в кроссовере"),
  ("Сведение в кроссовере", "Сведение рук в кроссовере"),
  ("Кроссовер снизу вверх", "Сведение рук в нижнем кроссовере"),
  ("Жим в Смите", "Жим в тренажере Смита"),
  ("Жим лежа в Смите", "Жим в тренажере Смита"),
  ("Жим под углом в Смите", "Жим на наклонной скамье в Смите"),
  ("Жим узким хватом в тренажере Смита", "Жим узким хватом в Смите"),
  ("Тяга в наклоне в тренажере Смита", "Тяга в наклоне в Смите"),
  ("Приседания", "Приседания со штангой"),
  ("Приседания в тренажере Смита", "Приседания в Смите"),
  ("Выпады", "Выпады со штангой"),
  ("Ягодичный мостик", "Ягодичный мостик со штангой"),
  ("Становая тяга", "Становая тяга сумо"),
  ("Болгарские сплит-приседания", "Шагающие выпады со штангой"),
  ("Болгарские приседания в тренажере Смита", "Болгарские приседания в Смите"),
  ("Жим ногами в тренажере Смита", "Жим ногами в Смите"),
  ("Тяга на прямых ногах в тренажере Смита", "Тяга на прямых ногах в Смите"),
  ("Махи ногой в сторону", "Отведение ноги назад"),
  ("Отведение ноги назад в кроссовере", "Отведение ноги назад"),
  ("Беговая дорожка (ровный темп)", "Бег на дорожке (легкий темп)"),
  ("Интервальный бег", "Бег на дорожке (интенсивный)"),
  ("Эллипс", "Эллиптический тренажер"),
  ("Скакалка интервалы", "Скакалка"),
  ("Ходьба в горку", "Ходьба на дорожке"),
  ("Степпер", "Stairmaster"),
  ("Air Bike интервалы", "Велотренажер"),
  ("HIIT-круг 20/40", "Бег на дорожке (интенсивный)")]

/-- `getExerciseDefinition` (exerciseCatalog.ts:597), restricted to the
`.name` field of its result: direct catalog hit first, then the legacy
alias table. -/
def getExerciseDefinition (name : String) : Option String :=
  if catalogNames.contains name then some name
  else
    match legacyAliasByName.lookup name with
    | some target => if catalogNames.contains target then some target else none
    | none => none

/-! ## Constructors (App.tsx:236-262), with the id supply threaded in
source evaluation order -/

/-- `createDropSet` (App.tsx:236). -/
def createDropSet (gen : Nat → String) (weight reps : String) (k : Nat) :
    DropSet × Nat :=
  ({ id := gen k, weight := sanitizeDigits weight 3,
     reps := sanitizeDigits reps 2 }, k + 1)

/-- `createSet` (App.tsx:244). -/
def createSet (gen : Nat → String) (weight reps : String)
    (dropSets : List DropSet) (speed : String) (k : Nat) : WorkoutSet × Nat :=
  ({ id := gen k, weight := sanitizeDigits weight 3,
     reps := sanitizeDigits reps 3, speed := sanitizeDigits speed 3,
     dropSets := if dropSets.length > 0 then dropSets else [] }, k + 1)

/-- `createExercise` (App.tsx:254). An absent/empty `sets` argument is
modelled by `[]`; the fallback `createSet()` consumes its id after the
exercise id, as in the object-literal evaluation order. -/
def createExercise (gen : Nat → String) (name : String)
    (sets : List WorkoutSet) (note : String) (k : Nat) : SessionExercise × Nat :=
  let exId := gen k
  if sets.length > 0 then
    ({ id := exId, name := name, note := strTake note 140, expanded := false,
       sets := sets }, k + 1)
  else
    let (s, k') := createSet gen "" "" [] "" (k + 1)
    ({ id := exId, name := name, note := strTake note 140, expanded := false,
       sets := [s] }, k')

/-- `buildDefaultSessionByPlan` (App.tsx:264). -/
def buildDefaultSessionByPlan : SessionByPlan :=
  { upper := [], lower := [], fullbody := [], cardio := [], custom := [] }

/-! ## Normalization (App.tsx:273-323) -/

/-- One element of the `dropSets` array inside `normalizeExercises`
(App.tsx:293-303): non-objects are dropped. -/
def normalizeDropSet (gen : Nat → String) (v : JsValue) (k : Nat) :
    Option DropSet × Nat :=
  match parseObject v with
  | none => (none, k)
  | some fields =>
    let (d, k') := createDropSet gen
      (coerceToString (getField fields "weight"))
      (coerceToString (getField fields "reps")) k
    (some d, k')

/-- `rawDropSets.map(...).filter(Boolean)` with ids consumed left to
right. -/
def normalizeDropSets (gen : Nat → String) :
    List JsValue → Nat → List DropSet × Nat
  | [], k => ([], k)
  | v :: vs, k =>
    let (d?, k1) := normalizeDropSet gen v k
    let (rest, k2) := normalizeDropSets gen vs k1
    (match d? with | some d => d :: rest | none => rest, k2)

/-- One element of the `sets` array inside `normalizeExercises`
(App.tsx:287-311): non-objects are dropped; drop-sets nest one level
deeper with the same policy. -/
def normalizeSet (gen : Nat → String) (v : JsValue) (k : Nat) :
    Option WorkoutSet × Nat :=
  match parseObject v with
  | none => (none, k)
  | some fields =>
    let rawDropSets := match getField fields "dropSets" with
      | some (.arr xs) => xs
      | _ => []
    let (dropSets, k1) := normalizeDropSets gen rawDropSets k
    let (s, k2) := createSet gen
      (coerceToString (getField fields "weight"))
      (coerceToString (getField fields "reps"))
      dropSets
      (coerceToString (getField fields "speed")) k1
    (some s, k2)

/-- `rawSets.map(...).filter(Boolean)`. -/
def normalizeSets (gen : Nat → String) :
    List JsValue → Nat → List WorkoutSet × Nat
  | [], k => ([], k)
  | v :: vs, k =>
    let (s?, k1) := normalizeSet gen v k
    let (rest, k2) := normalizeSets gen vs k1
    (match s? with | some s => s :: rest | none => rest, k2)

/-- The `rawName` computation of `normalizeExercises` (App.tsx:281): a
string `name` field, trimmed and capped at 90 chars; anything else is
"". -/
def usableName (fields : List (String × JsValue)) : String :=
  match getField fields "name" with
  | some (.str s) => strTake (strTrim s) 90
  | _ => ""

/-- The element is rejected by `normalizeExercises` (App.tsx:278-282):
not a plain object, or no usable name. -/
def droppedByNormalize (v : JsValue) : Bool :=
  match parseObject v with
  | none => true
  | some fields => usableName fields == ""

/-- One element of `normalizeExercises` (App.tsx:277-321): accept only
plain objects with a usable (trimmed, 90-char-capped, non-empty) `name`;
everything else is dropped (`return null`). The exercise id is generated
after the set ids; an empty set list falls back to one fresh empty set
whose id is generated after the exercise id. -/
def normalizeExercise (gen : Nat → String) (v : JsValue) (k : Nat) :
    Option SessionExercise × Nat :=
  match parseObject v with
  | none => (none, k)
  | some fields =>
    let rawName := usableName fields
    if rawName = "" then (none, k)
    else
      let canonicalName := (getExerciseDefinition rawName).getD rawName
      let rawSets := match getField fields "sets" with
        | some (.arr xs) => xs
        | _ => []
      let (sets, k1) := normalizeSets gen rawSets k
      let exId := gen k1
      let note := match getField fields "note" with
        | some (.str s) => strTake s 140
        | _ => ""
      let expanded := jsTruthy (getField fields "expanded")
      if sets.length > 0 then
        (some { id := exId, name := canonicalName, note := note,
                expanded := expanded, sets := sets }, k1 + 1)
      else
        let (s, k2) := createSet gen "" "" [] "" (k1 + 1)
        (some { id := exId, name := canonicalName, note := note,
                expanded := expanded, sets := [s] }, k2)

/-- The element loop of `normalizeExercises`. -/
def normalizeExercisesList (gen : Nat → String) :
    List JsValue → Nat → List SessionExercise × Nat
  | [], k => ([], k)
  | v :: vs, k =>
    let (e?, k1) := normalizeExercise gen v k
    let (rest, k2) := normalizeExercisesList gen vs k1
    (match e? with | some e => e :: rest | none => rest, k2)

/-- `normalizeExercises` (App.tsx:273): non-arrays give `[]`. The input
is the possibly-absent plan field of the parsed blob. -/
def normalizeExercises (gen : Nat → String) (input : Option JsValue)
    (k : Nat) : List SessionExercise × Nat :=
  match input with
  | some (.arr xs) => normalizeExercisesList gen xs k
  | _ => ([], k)

/-- The outcome of `localStorage.getItem(STORAGE_KEY)` followed by
`JSON.parse`: the key absent or the stored text empty (both falsy),
a parse exception, or a parsed value. -/
inductive RawSession where
  | missing
  | parseError
  | value (v : JsValue)

/-- `loadSessionByPlan` (App.tsx:325): any failure path yields the fresh
default state; otherwise each of the five known plan keys is normalized,
in object-literal order. -/
def loadSessionByPlan (gen : Nat → String) (raw : RawSession) (k : Nat) :
    SessionByPlan × Nat :=
  match raw with
  | .missing => (buildDefaultSessionByPlan, k)
  | .parseError => (buildDefaultSessionByPlan, k)
  | .value v =>
    match parseObject v with
    | none => (buildDefaultSessionByPlan, k)
    | some fields =>
      let (upper, k1) := normalizeExercises gen (getField fields "upper") k
      let (lower, k2) := normalizeExercises gen (getField fields "lower") k1
      let (fullbody, k3) := normalizeExercises gen (getField fields "fullbody") k2
      let (cardio, k4) := normalizeExercises gen (getField fields "cardio") k3
      let (custom, k5) := normalizeExercises gen (getField fields "custom") k4
      ({ upper := upper, lower := lower, fullbody := fullbody,
         cardio := cardio, custom := custom }, k5)

/-! ## Well-formedness invariants -/

/-- A well-formed drop set: digit-only, length-capped weight (≤3) and
reps (≤2). -/
def DropSetWF (d : DropSet) : Prop :=
  DigitCap d.weight 3 ∧ DigitCap d.reps 2

/-- A well-formed set: digit-only, length-capped weight/reps/speed (≤3
each, v7 caps) and well-formed drop sets. -/
def SetWF (s : WorkoutSet) : Prop :=
  DigitCap s.weight 3 ∧ DigitCap s.reps 3 ∧ DigitCap s.speed 3 ∧
    ∀ d ∈ s.dropSets, DropSetWF d

/-- The sets invariant of an exercise: at least one set, every set
well-formed. -/
def ExerciseSetsWF (e : SessionExercise) : Prop :=
  e.sets ≠ [] ∧ ∀ s ∈ e.sets, SetWF s

/-- A well-formed exercise: non-empty name, note capped at 140 chars,
and the sets invariant. -/
def ExerciseWF (e : SessionExercise) : Prop :=
  e.name ≠ "" ∧ e.note.length ≤ 140 ∧ ExerciseSetsWF e

/-- Every exercise of the list is well-formed. -/
def ListWF (l : List SessionExercise) : Prop :=
  ∀ e ∈ l, ExerciseWF e

/-- Every plan's list is made of well-formed exercises. -/
def SessionWF (s : SessionByPlan) : Prop :=
  ListWF s.upper ∧ ListWF s.lower ∧ ListWF s.fullbody ∧
    ListWF s.cardio ∧ ListWF s.custom

instance (d : DropSet) : Decidable (DropSetWF d) := by
  unfold DropSetWF; infer_instance

instance (s : WorkoutSet) : Decidable (SetWF s) := by
  unfold SetWF; infer_instance

instance (e : SessionExercise) : Decidable (ExerciseSetsWF e) := by
  unfold ExerciseSetsWF; infer_instance

instance (e : SessionExercise) : Decidable (ExerciseWF e) := by
  unfold ExerciseWF; infer_instance

instance (l : List SessionExercise) : Decidable (ListWF l) := by
  unfold ListWF; infer_instance

instance (s : SessionByPlan) : Decidable (SessionWF s) := by
  unfold SessionWF; infer_instance

theorem strTake_length_le (s : String) (n : Nat) :
    (strTake s n).length ≤ n := by
  show (s.data.take n).length ≤ n
  exact List.length_take_le n s.data

theorem createDropSet_wf (gen : Nat → String) (w r : String) (k : Nat) :
    DropSetWF (createDropSet gen w r k).1 :=
  ⟨sanitizeDigits_digitCap w 3, sanitizeDigits_digitCap r 2⟩

theorem createSet_wf (gen : Nat → String) (w r : String)
    (ds : List DropSet) (sp : String) (k : Nat)
    (hds : ∀ d ∈ ds, DropSetWF d) :
    SetWF (createSet gen w r ds sp k).1 := by
  refine ⟨sanitizeDigits_digitCap w 3, sanitizeDigits_digitCap r 3,
    sanitizeDigits_digitCap sp 3, ?_⟩
  intro d hd
  simp only [createSet] at hd
  split at hd
  · exact hds d hd
  · simp at hd

theorem normalizeDropSets_wf (gen : Nat → String) :
    ∀ (vs : List JsValue) (k : Nat),
      ∀ d ∈ (normalizeDropSets gen vs k).1, DropSetWF d := by
  intro vs
  induction vs with
  | nil => intro k d hd; simp [normalizeDropSets] at hd
  | cons v vs ih =>
    intro k d hd
    simp only [normalizeDropSets] at hd
    unfold normalizeDropSet at hd
    cases hpo : parseObject v with
    | none =>
      rw [hpo] at hd
      simp only at hd
      exact ih _ d hd
    | some fields =>
      rw [hpo] at hd
      simp only at hd
      rcases List.mem_cons.mp hd with h | h
      · subst h; exact createDropSet_wf gen _ _ _
      · exact ih _ d h

theorem normalizeSet_wf (gen : Nat → String) (v : JsValue) (k : Nat)
    {s : WorkoutSet} (hs : (normalizeSet gen v k).1 = some s) :
    SetWF s := by
  unfold normalizeSet at hs
  cases hpo : parseObject v with
  | none => rw [hpo] at hs; simp at hs
  | some fields =>
    rw [hpo] at hs
    simp only [Option.some.injEq] at hs
    subst hs
    exact createSet_wf gen _ _ _ _ _ (normalizeDropSets_wf gen _ _)

theorem normalizeSets_wf (gen : Nat → String) :
    ∀ (vs : List JsValue) (k : Nat),
      ∀ s ∈ (normalizeSets gen vs k).1, SetWF s := by
  intro vs
  induction vs with
  | nil => intro k s hs; simp [normalizeSets] at hs
  | cons v vs ih =>
    intro k s hs
    simp only [normalizeSets] at hs
    cases hv : (normalizeSet gen v k).1 with
    | none =>
      rw [hv] at hs
      simp only at hs
      exact ih _ s hs
    | some s' =>
      rw [hv] at hs
      simp only at hs
      rcases List.mem_cons.mp hs with h | h
      · subst h; exact normalizeSet_wf gen v k hv
      · exact ih _ s h

theorem getExerciseDefinition_mem {name nm : String}
    (h : getExerciseDefinition name = some nm) : nm ∈ catalogNames := by
  unfold getExerciseDefinition at h
  split at h
  · next hc => cases h; exact List.mem_of_elem_eq_true hc
  · split at h
    · split at h
      · next hc => cases h; exact List.mem_of_elem_eq_true hc
      · cases h
    · cases h

theorem catalogNames_nonempty_names : ∀ nm ∈ catalogNames, nm ≠ "" := by
  decide

theorem normalizeExercise_wf (gen : Nat → String) (v : JsValue) (k : Nat)
    {e : SessionExercise} (he : (normalizeExercise gen v k).1 = some e) :
    ExerciseWF e := by
  unfold normalizeExercise at he
  cases hpo : parseObject v with
  | none => rw [hpo] at he; simp at he
  | some fields =>
    rw [hpo] at he
    simp only at he
    set rawName := usableName fields with hraw
    by_cases hname : rawName = ""
    · rw [if_pos hname] at he; simp at he
    · rw [if_neg hname] at he
      have hcanon : (getExerciseDefinition rawName).getD rawName ≠ "" := by
        cases hdef : getExerciseDefinition rawName with
        | none => simpa [hdef] using hname
        | some nm =>
          simp only [hdef, Option.getD_some]
          exact catalogNames_nonempty_names nm (getExerciseDefinition_mem hdef)
      have hnote : ∀ x : Option JsValue,
          (match x with | some (.str s) => strTake s 140 | _ => "").length ≤ 140 := by
        intro x
        match x with
        | some (.str s) => exact strTake_length_le s 140
        | none => simp [String.length]
        | some .null => simp [String.length]
        | some (.bool b) => simp [String.length]
        | some (.num n) => simp [String.length]
        | some (.arr xs) => simp [String.length]
        | some (.obj fs) => simp [String.length]
      split at he
      · next hlen =>
        simp only [Option.some.injEq] at he
        subst he
        refine ⟨hcanon, hnote _, ?_, ?_⟩
        · exact List.ne_nil_of_length_pos hlen
        · intro s hs
          exact normalizeSets_wf gen _ _ s hs
      · simp only [Option.some.injEq] at he
        subst he
        refine ⟨hcanon, hnote _, ?_, ?_⟩
        · simp
        · intro s hs
          simp only [List.mem_singleton] at hs
          subst hs
          exact createSet_wf gen _ _ _ _ _ (by intro d hd; simp at hd)

theorem normalizeExercisesList_wf (gen : Nat → String) :
    ∀ (vs : List JsValue) (k : Nat),
      ListWF (normalizeExercisesList gen vs k).1 := by
  intro vs
  induction vs with
  | nil => intro k e he; simp [normalizeExercisesList] at he
  | cons v vs ih =>
    intro k e he
    simp only [normalizeExercisesList] at he
    cases hv : (normalizeExercise gen v k).1 with
    | none =>
      rw [hv] at he
      simp only at he
      exact ih _ e he
    | some e' =>
      rw [hv] at he
      simp only at he
      rcases List.mem_cons.mp he with h | h
      · subst h; exact normalizeExercise_wf gen v k hv
      · exact ih _ e h

theorem normalizeExercises_wf (gen : Nat → String) (input : Option JsValue)
    (k : Nat) : ListWF (normalizeExercises gen input k).1 := by
  unfold normalizeExercises
  match input with
  | some (.arr xs) => exact normalizeExercisesList_wf gen xs k
  | none => intro e he; simp at he
  | some .null => intro e he; simp at he
  | some (.bool b) => intro e he; simp at he
  | some (.num n) => intro e he; simp at he
  | some (.str s) => intro e he; simp at he
  | some (.obj fs) => intro e he; simp at he

theorem loadSessionByPlan_wf (gen : Nat → String) (raw : RawSession)
    (k : Nat) : SessionWF (loadSessionByPlan gen raw k).1 := by
  have hdefault : SessionWF buildDefaultSessionByPlan := by
    refine ⟨?_, ?_, ?_, ?_, ?_⟩ <;> (intro e he; simp [buildDefaultSessionByPlan] at he)
  cases raw with
  | missing => exact hdefault
  | parseError => exact hdefault
  | value v =>
    cases hpo : parseObject v with
    | none => simp only [loadSessionByPlan, hpo]; exact hdefault
    | some fields =>
      simp only [loadSessionByPlan, hpo]
      exact ⟨normalizeExercises_wf gen _ _, normalizeExercises_wf gen _ _,
        normalizeExercises_wf gen _ _, normalizeExercises_wf gen _ _,
        normalizeExercises_wf gen _ _⟩

/-! ## In-session operations (App.tsx, v7 revision) -/

/-- The three editable set fields (App.tsx:73). -/
inductive SetField where
  | weight
  | reps
  | speed
  deriving Repr, DecidableEq

/-- `{ ...setItem, [field]: sanitized }`. -/
def setFieldUpdate (field : SetField) (value : String) (s : WorkoutSet) :
    WorkoutSet :=
  match field with
  | .weight => { s with weight := value }
  | .reps => { s with reps := value }
  | .speed => { s with speed := value }

/-- `updateSetValue` (App.tsx:1174): sanitize with cap 3, then update the
matching set of the matching exercise. -/
def updateSetValue (exercises : List SessionExercise)
    (exerciseId setId : String) (field : SetField) (value : String) :
    List SessionExercise :=
  let sanitized := sanitizeDigits value 3
  exercises.map fun e =>
    if e.id ≠ exerciseId then e
    else { e with sets := e.sets.map fun s =>
      if s.id = setId then setFieldUpdate field sanitized s else s }

/-- `addSet` (App.tsx:1191): append a fresh empty set to the matching
exercise. One id per matching exercise, consumed in list order. Note:
this revision neither copies the previous set forward nor triggers any
haptic or rest-timer effect. -/
def addSet (gen : Nat → String) (exerciseId : String) :
    List SessionExercise → Nat → List SessionExercise × Nat
  | [], k => ([], k)
  | e :: es, k =>
    if e.id = exerciseId then
      let (s, k1) := createSet gen "" "" [] "" k
      let (rest, k2) := addSet gen exerciseId es k1
      ({ e with sets := e.sets ++ [s] } :: rest, k2)
    else
      let (rest, k1) := addSet gen exerciseId es k
      (e :: rest, k1)

/-- `removeSet` (App.tsx:1199): drop the matching set unless the exercise
would be left with fewer than one set; the Boolean mirrors the `removed`
flag (haptic "soft" when true, notice "Нужен минимум один подход" when
false). -/
def removeSet (exercises : List SessionExercise)
    (exerciseId setId : String) : List SessionExercise × Bool :=
  (exercises.map fun e =>
    if e.id ≠ exerciseId then e
    else if e.sets.length ≤ 1 then e
    else { e with sets := e.sets.filter fun s => s.id ≠ setId },
   exercises.any fun e => e.id = exerciseId && decide (e.sets.length > 1))

/-- `toggleExercise` (App.tsx:1146): flip the targeted exercise's
`expanded` flag and collapse every other exercise. -/
def toggleExercise (exercises : List SessionExercise)
    (exerciseId : String) : List SessionExercise :=
  exercises.map fun e =>
    if e.id = exerciseId then { e with expanded := !e.expanded }
    else if !e.expanded then e
    else { e with expanded := false }

/-! ## Rest timer (App.tsx:923-941, 1474-1496)

The timer state is the nullable `restSeconds` countdown; `firedCount`
counts the expiry notification/haptic("medium") events, which the source
emits exactly when a tick crosses to zero. -/

/-- The countdown plus an event counter for expiry notifications. -/
structure TimerState where
  restSeconds : Option Nat
  firedCount : Nat
  deriving Repr, DecidableEq

/-- One one-second tick (the `setTimeout` callback body, App.tsx:927-937):
a stale tick on an idle timer does nothing; at `current <= 1` the timer
fires its one expiry event and becomes idle; otherwise it decrements. -/
def restTick (st : TimerState) : TimerState :=
  match st.restSeconds with
  | none => st
  | some current =>
    if current ≤ 1 then { restSeconds := none, firedCount := st.firedCount + 1 }
    else { st with restSeconds := some (current - 1) }

/-- `stopRestTimer` (App.tsx:1494): clear the countdown, no event. -/
def stopRestTimer (st : TimerState) : TimerState :=
  { st with restSeconds := none }

/-- `String(n).padStart(2, "0")`. -/
def padStart2 (s : String) : String :=
  if s.length ≥ 2 then s
  else String.mk (List.replicate (2 - s.length) '0') ++ s

/-- The rest-panel state read and written by `startRestTimer`. -/
structure RestPanel where
  minutesInput : String
  secondsInput : String
  restSeconds : Option Nat
  panelOpen : Bool
  deriving Repr, DecidableEq

/-- The outcome of `startRestTimer`: the new panel state, the notice (if
any) and whether the "light" haptic fired. -/
structure StartOutcome where
  panel : RestPanel
  notice : Option String
  hapticLight : Bool
  deriving Repr, DecidableEq

/-- `Number(input || "0")` on the digit-only strings produced by the
rest-panel inputs (both are routed through `sanitizeNumber(·, 2)`, so
`Number.isFinite` always holds and `Math.floor`/`Math.max 0` are
identities). -/
def digitsToNat (s : String) : Nat :=
  let t := if s = "" then "0" else s
  if t.data.all (·.isDigit) then
    t.data.foldl (fun n c => n * 10 + (c.toNat - 48)) 0
  else 0

/-- `startRestTimer` (App.tsx:1474): clamp minutes to [0,99] and seconds
to [0,59]; a non-positive total is rejected with the notice
"Укажи время отдыха" and no state change; otherwise the countdown starts
at the total, the inputs are rewritten to their clamped forms, the panel
opens and one "light" haptic fires. -/
def startRestTimer (st : RestPanel) : StartOutcome :=
  let minutes := digitsToNat st.minutesInput
  let seconds := digitsToNat st.secondsInput
  let safeMinutes := min 99 minutes
  let safeSeconds := min 59 seconds
  let total := safeMinutes * 60 + safeSeconds
  if total ≤ 0 then
    { panel := st, notice := some "Укажи время отдыха", hapticLight := false }
  else
    { panel := { minutesInput := toString safeMinutes,
                 secondsInput := padStart2 (toString safeSeconds),
                 restSeconds := some total, panelOpen := true },
      notice := none, hapticLight := true }

/-! ## Profile measurements (App.tsx:91-112, 1505-1539) -/

/-- `MeasurementEntry` (App.tsx:91). -/
structure MeasurementEntry where
  id : String
  date : String
  height : String
  weight : String
  chest : String
  waist : String
  glutes : String
  thighs : String
  belly : String
  deriving Repr, DecidableEq

/-- `ProfileState` (App.tsx:103). -/
structure ProfileState where
  height : String
  weight : String
  chest : String
  waist : String
  glutes : String
  thighs : String
  belly : String
  measurements : List MeasurementEntry
  deriving Repr, DecidableEq

/-- All editable measurement fields are empty (the rejection guard of
`addMeasurement`). -/
def profileAllEmpty (p : ProfileState) : Bool :=
  p.height = "" && p.weight = "" && p.chest = "" && p.waist = "" &&
    p.glutes = "" && p.thighs = "" && p.belly = ""

/-- The entry `addMeasurement` builds from the current profile fields
(`date` is `new Date().toLocaleDateString(...)`, passed in here). -/
def measurementEntryOf (gen : Nat → String) (k : Nat) (today : String)
    (p : ProfileState) : MeasurementEntry :=
  { id := gen k, date := today, height := p.height, weight := p.weight,
    chest := p.chest, waist := p.waist, glutes := p.glutes,
    thighs := p.thighs, belly := p.belly }

/-- `addMeasurement` (App.tsx:1505): reject (notice, no change) when all
fields are empty; otherwise prepend the new entry and keep at most 40
entries (`[entry, ...prev].slice(0, 40)`). The Boolean reports whether an
entry was added. -/
def addMeasurement (gen : Nat → String) (today : String)
    (p : ProfileState) (k : Nat) : ProfileState × Nat × Bool :=
  if profileAllEmpty p then (p, k, false)
  else
    ({ p with measurements :=
        (measurementEntryOf gen k today p :: p.measurements).take 40 },
     k + 1, true)

/-! ## Persistence (App.tsx:901-903)

`localStorage.setItem(STORAGE_KEY, JSON.stringify(sessionByPlan))`
followed by a later `JSON.parse` reproduces the same value structure, so
serialization is modelled directly as the parsed `JsValue` of the
stringified state. -/

def dropSetToJs (d : DropSet) : JsValue :=
  .obj [("id", .str d.id), ("weight", .str d.weight), ("reps", .str d.reps)]

def setToJs (s : WorkoutSet) : JsValue :=
  .obj [("id", .str s.id), ("weight", .str s.weight), ("reps", .str s.reps),
        ("speed", .str s.speed), ("dropSets", .arr (s.dropSets.map dropSetToJs))]

def exerciseToJs (e : SessionExercise) : JsValue :=
  .obj [("id", .str e.id), ("name", .str e.name), ("note", .str e.note),
        ("expanded", .bool e.expanded), ("sets", .arr (e.sets.map setToJs))]

/-- `JSON.parse(JSON.stringify(sessionByPlan))`. -/
def sessionToJs (s : SessionByPlan) : JsValue :=
  .obj [("upper", .arr (s.upper.map exerciseToJs)),
        ("lower", .arr (s.lower.map exerciseToJs)),
        ("fullbody", .arr (s.fullbody.map exerciseToJs)),
        ("cardio", .arr (s.cardio.map exerciseToJs)),
        ("custom", .arr (s.custom.map exerciseToJs))]

/-! ## Id erasure (for stating what the persistence round trip preserves:
`normalizeExercises` regenerates every `id` via `createId()`). -/

def eraseDropSetId (d : DropSet) : DropSet := { d with id := "" }

def eraseSetId (s : WorkoutSet) : WorkoutSet :=
  { s with id := "", dropSets := s.dropSets.map eraseDropSetId }

def eraseExerciseId (e : SessionExercise) : SessionExercise :=
  { e with id := "", sets := e.sets.map eraseSetId }

def eraseIds (s : SessionByPlan) : SessionByPlan :=
  { upper := s.upper.map eraseExerciseId, lower := s.lower.map eraseExerciseId,
    fullbody := s.fullbody.map eraseExerciseId,
    cardio := s.cardio.map eraseExerciseId,
    custom := s.custom.map eraseExerciseId }

/-! ## Canonical (persistable) states: what a round trip can preserve. -/

/-- A drop set whose fields are already in sanitized form. -/
def DropSetCanon (d : DropSet) : Prop :=
  sanitizeDigits d.weight 3 = d.weight ∧ sanitizeDigits d.reps 2 = d.reps

/-- A set whose fields are already in sanitized form. -/
def SetCanon (s : WorkoutSet) : Prop :=
  sanitizeDigits s.weight 3 = s.weight ∧ sanitizeDigits s.reps 3 = s.reps ∧
    sanitizeDigits s.speed 3 = s.speed ∧ ∀ d ∈ s.dropSets, DropSetCanon d

/-- An exercise the normalizer maps to itself up to ids: usable
trim/cap-stable canonical name, capped note, at least one canonical
set. -/
def ExerciseCanon (e : SessionExercise) : Prop :=
  strTake (strTrim e.name) 90 = e.name ∧ e.name ≠ "" ∧
    (getExerciseDefinition e.name).getD e.name = e.name ∧
    strTake e.note 140 = e.note ∧ e.sets ≠ [] ∧ ∀ s ∈ e.sets, SetCanon s

/-- All five plan lists are canonical. -/
def SessionCanon (s : SessionByPlan) : Prop :=
  (∀ e ∈ s.upper, ExerciseCanon e) ∧ (∀ e ∈ s.lower, ExerciseCanon e) ∧
    (∀ e ∈ s.fullbody, ExerciseCanon e) ∧ (∀ e ∈ s.cardio, ExerciseCanon e) ∧
    (∀ e ∈ s.custom, ExerciseCanon e)

instance (d : DropSet) : Decidable (DropSetCanon d) := by
  unfold DropSetCanon; infer_instance

instance (s : WorkoutSet) : Decidable (SetCanon s) := by
  unfold SetCanon; infer_instance

instance (e : SessionExercise) : Decidable (ExerciseCanon e) := by
  unfold ExerciseCanon; infer_instance

instance (s : SessionByPlan) : Decidable (SessionCanon s) := by
  unfold SessionCanon; infer_instance

end Gum

/-! ## Earlier revision src/unnamed/part_001 ("gym-check-session-v4"):
three plan keys, sets without speed/drop-sets, reps capped at 2 digits,
copy-forward `addSet` with rest-timer start and haptic. -/

namespace GumV4

open Gum (JsValue sanitizeDigits strTake strTrim coerceToString getField
  parseObject jsTruthy padStart2)

/-- `WorkoutSet` (part_001:35). -/
structure WorkoutSet where
  id : String
  weight : String
  reps : String
  deriving Repr, DecidableEq

/-- `SessionExercise` (part_001:41). -/
structure SessionExercise where
  id : String
  name : String
  expanded : Bool
  sets : List WorkoutSet
  deriving Repr, DecidableEq

/-- `createSet` (part_001:138): weight capped at 3 digits, reps at 2. -/
def createSet (gen : Nat → String) (weight reps : String) (k : Nat) :
    WorkoutSet × Nat :=
  ({ id := gen k, weight := sanitizeDigits weight 3,
     reps := sanitizeDigits reps 2 }, k + 1)

/-- `item?.name` — property access on an arbitrary value: only plain
objects have own properties here. -/
def jsProp (v : JsValue) (key : String) : Option JsValue :=
  match v with
  | .obj fields => getField fields key
  | _ => none

/-- The `name` computation of part_001's `normalizeExercises`
(part_001:177): trimmed and capped at 80 chars. -/
def usableName (v : JsValue) : String :=
  match jsProp v "name" with
  | some (.str s) => strTake (strTrim s) 80
  | _ => ""

/-- `item.sets.map((setItem) => createSet(...))` (part_001:180-187):
every element is mapped, with no per-element object check. -/
def mapSets (gen : Nat → String) : List JsValue → Nat → List WorkoutSet × Nat
  | [], k => ([], k)
  | v :: vs, k =>
    let (s, k1) := createSet gen
      (coerceToString (jsProp v "weight")) (coerceToString (jsProp v "reps")) k
    let (rest, k2) := mapSets gen vs k1
    (s :: rest, k2)

/-- One element of `normalizeExercises` (part_001:176-195): a value
without a usable (trimmed, 80-char-capped, non-empty) string `name` is
dropped (`return null`); the `sets` array is mapped through `createSet`
without any per-element object check; a missing sets array (computed
before the exercise id) and an empty one (computed after it) each fall
back to one fresh empty set. -/
def normalizeExercise (gen : Nat → String) (v : JsValue) (k : Nat) :
    Option SessionExercise × Nat :=
  let name := usableName v
  if name = "" then (none, k)
  else
    let (sets, k1) := match jsProp v "sets" with
      | some (.arr xs) => mapSets gen xs k
      | _ =>
        let (s, k') := createSet gen "" "" k
        ([s], k')
    let exId := gen k1
    if sets.length > 0 then
      (some { id := exId, name := name,
              expanded := jsTruthy (jsProp v "expanded"), sets := sets }, k1 + 1)
    else
      let (s, k2) := createSet gen "" "" (k1 + 1)
      (some { id := exId, name := name,
              expanded := jsTruthy (jsProp v "expanded"), sets := [s] }, k2)

/-- The element loop of `normalizeExercises` (part_001:172). -/
def normalizeExercisesList (gen : Nat → String) :
    List JsValue → Nat → List SessionExercise × Nat
  | [], k => ([], k)
  | v :: vs, k =>
    let (e?, k1) := normalizeExercise gen v k
    let (rest, k2) := normalizeExercisesList gen vs k1
    (match e? with | some e => e :: rest | none => rest, k2)

/-- The effectful result of `addSet` (part_001:343-361). -/
structure AddSetOutcome where
  exercises : List SessionExercise
  restSeconds : Option Nat
  notice : String
  hapticLight : Nat
  deriving Repr, DecidableEq

/-- `formatSeconds` (part_001:223) on a `Nat` (already non-negative). -/
def formatSeconds (totalSeconds : Nat) : String :=
  padStart2 (toString (totalSeconds / 60)) ++ ":" ++
    padStart2 (toString (totalSeconds % 60))

/-- The exercise-list update inside `addSet`: the matching exercise is
expanded and gets a new set copying the last set's weight/reps
(`lastSet?.weight ?? ""`). -/
def addSetList (gen : Nat → String) (exerciseId : String) :
    List SessionExercise → Nat → List SessionExercise × Nat
  | [], k => ([], k)
  | e :: es, k =>
    if e.id = exerciseId then
      let lastWeight := match e.sets.getLast? with
        | some l => l.weight
        | none => ""
      let lastReps := match e.sets.getLast? with
        | some l => l.reps
        | none => ""
      let (s, k1) := createSet gen lastWeight lastReps k
      let (rest, k2) := addSetList gen exerciseId es k1
      ({ e with expanded := true, sets := e.sets ++ [s] } :: rest, k2)
    else
      let (rest, k1) := addSetList gen exerciseId es k
      (e :: rest, k1)

/-- `addSet` (part_001:343): update the exercises, start the rest timer
at `DEFAULT_REST_SECONDS = 90`, show the notice, fire one "light"
haptic. -/
def addSet (gen : Nat → String) (exercises : List SessionExercise)
    (exerciseId : String) (k : Nat) : AddSetOutcome × Nat :=
  let (exs, k1) := addSetList gen exerciseId exercises k
  ({ exercises := exs, restSeconds := some 90,
     notice := "Подход добавлен • отдых " ++ formatSeconds 90,
     hapticLight := 1 }, k1)

end GumV4

/-! ## Earliest revision src/unnamed/part_000 ("gym-check-session-v3",
a single-list store):
its per-element normalization (inside `loadSession`, part_000:194-217)
substitutes the placeholder name "Упражнение" instead of dropping
elements without a usable name. -/

namespace GumV3

open Gum (JsValue sanitizeDigits strTake strTrim coerceToString getField
  jsTruthy)
open GumV4 (jsProp)

/-- `WorkoutSet` of part_000 (same shape as part_001). -/
structure WorkoutSet where
  id : String
  weight : String
  reps : String
  deriving Repr, DecidableEq

/-- `SessionExercise` (part_000, with a muscle-group id). -/
structure SessionExercise where
  id : String
  name : String
  groupId : String
  expanded : Bool
  sets : List WorkoutSet
  deriving Repr, DecidableEq

/-- The `exerciseGroups` ids of part_000 (first is the fallback). -/
def exerciseGroupIds : List String :=
  ["legs", "shoulders", "back", "chest", "triceps"]

/-- `createSet` (part_000:151): weight cap 3, reps cap 2. -/
def createSet (gen : Nat → String) (weight reps : String) (k : Nat) :
    WorkoutSet × Nat :=
  ({ id := gen k, weight := sanitizeDigits weight 3,
     reps := sanitizeDigits reps 2 }, k + 1)

/-- `item.sets.map((setItem) => createSet(...))` (part_000:200-207). -/
def mapSets (gen : Nat → String) : List JsValue → Nat → List WorkoutSet × Nat
  | [], k => ([], k)
  | v :: vs, k =>
    let (s, k1) := createSet gen
      (coerceToString (jsProp v "weight")) (coerceToString (jsProp v "reps")) k
    let (rest, k2) := mapSets gen vs k1
    (s :: rest, k2)

/-- One element of the `loadSession` normalization (part_000:194-217):
never drops an element — a missing/unusable name becomes the placeholder
"Упражнение" (name capped at 80 chars), an unknown group id falls back to
the first group, and missing sets become one fresh empty set. The
fallback set of the `createExercise` options literal is evaluated before
`createExercise` generates the exercise id. -/
def normalizeItem (gen : Nat → String) (v : JsValue) (k : Nat) :
    SessionExercise × Nat :=
  let groupId := match jsProp v "groupId" with
    | some (.str g) => if exerciseGroupIds.contains g then g else "legs"
    | _ => "legs"
  let name := match jsProp v "name" with
    | some (.str s) =>
      if strTrim s ≠ "" then strTake (strTrim s) 80 else "Упражнение"
    | _ => "Упражнение"
  let (setItems, k1) := match jsProp v "sets" with
    | some (.arr xs) => mapSets gen xs k
    | _ => ([], k)
  if setItems.length > 0 then
    ({ id := gen k1, name := name, groupId := groupId,
       expanded := jsTruthy (jsProp v "expanded"), sets := setItems }, k1 + 1)
  else
    let (s, k2) := createSet gen "" "" k1
    ({ id := gen k2, name := name, groupId := groupId,
       expanded := jsTruthy (jsProp v "expanded"), sets := [s] }, k2 + 1)

/-- The `parsed.map(...)` loop of `loadSession` (part_000:194). -/
def normalizeSession (gen : Nat → String) :
    List JsValue → Nat → List SessionExercise × Nat
  | [], k => ([], k)
  | v :: vs, k =>
    let (e, k1) := normalizeItem gen v k
    let (rest, k2) := normalizeSession gen vs k1
    (e :: rest, k2)

end GumV3

/-! ## Concrete id supply used for witnesses and counterexamples

`crypto.randomUUID()` draws fresh ids; the witnesses fix one injective
supply of pairwise-distinct ids. -/

def gen0 : Nat → String := fun n => "id-" ++ toString n

/-! # Claims -/

/-- C1: For every persisted blob — absent/empty text, unparseable JSON, a
JSON array or other non-object, or an object with arbitrarily wrong-typed
fields — `loadSessionByPlan` returns (without throwing: it is a total
function of the parse outcome) a `SessionByPlan`, which by its record type
has exactly the five known plan keys, each mapped to a list of well-formed
exercises: non-empty name, note capped at 140 chars, at least one set, and
digits-only length-capped weight/reps/speed and drop-set fields. -/
theorem loadSessionByPlan_total_wellFormed (gen : Nat → String)
    (raw : Gum.RawSession) (k : Nat) :
    Gum.SessionWF (Gum.loadSessionByPlan gen raw k).1 :=
  Gum.loadSessionByPlan_wf gen raw k

/-- `restTick` leaves an idle timer idle and fires nothing, for any
number of ticks. -/
theorem restTick_iterate_idle (extra c : Nat) :
    Gum.restTick^[extra] { restSeconds := none, firedCount := c } =
      { restSeconds := none, firedCount := c } := by
  induction extra with
  | zero => rfl
  | succ m ih => rw [Function.iterate_succ_apply, show Gum.restTick
      { restSeconds := none, firedCount := c } =
      { restSeconds := none, firedCount := c } from rfl, ih]

/-- From `running(n)` with `n ≥ 1`, exactly `n` ticks reach `idle` with
exactly one expiry event fired. -/
theorem restTick_countdown : ∀ (n c : Nat), 1 ≤ n →
    Gum.restTick^[n] { restSeconds := some n, firedCount := c } =
      { restSeconds := none, firedCount := c + 1 } := by
  intro n
  induction n with
  | zero => intro c h; omega
  | succ m ih =>
    intro c h
    cases m with
    | zero =>
      rw [Function.iterate_one]
      simp [Gum.restTick]
    | succ m' =>
      rw [Function.iterate_succ_apply]
      have hstep : Gum.restTick { restSeconds := some (m' + 1 + 1), firedCount := c } =
          { restSeconds := some (m' + 1), firedCount := c } := by
        simp [Gum.restTick]
      rw [hstep]
      exact ih c (by omega)

/-- C2: For every input value (any JS value, or an absent one, coerced to
its string form) and every digit cap `n`, `sanitizeNumber` returns a
string containing only the characters 0-9, of length at most `n`; it is a
total, string-valued function (never throws, never null). -/
theorem sanitizeNumber_digits_capped (value : Option Gum.JsValue) (n : Nat) :
    Gum.isDigitString (Gum.sanitizeNumber value n) = true ∧
      (Gum.sanitizeNumber value n).length ≤ n :=
  Gum.sanitizeDigits_digitCap (Gum.jsOrEmptyString value) n

/-- C6: `startRestTimer` clamps minutes to [0,99] and seconds to [0,59]
and computes `total = minutes*60 + seconds`; a non-positive total is
rejected — the panel state (in particular the idle `restSeconds`) is
unchanged and the validation notice "Укажи время отдыха" is shown —
while a positive total enters `running(total)` (with the inputs rewritten
to their clamped forms, the panel opened, and a "light" haptic). -/
theorem startRestTimer_clamps_and_validates (st : Gum.RestPanel) (total : Nat)
    (htotal : total = min 99 (Gum.digitsToNat st.minutesInput) * 60 +
      min 59 (Gum.digitsToNat st.secondsInput)) :
    (total = 0 → Gum.startRestTimer st =
      { panel := st, notice := some "Укажи время отдыха", hapticLight := false }) ∧
    (total ≠ 0 → Gum.startRestTimer st =
      { panel := { minutesInput := toString (min 99 (Gum.digitsToNat st.minutesInput)),
                   secondsInput := Gum.padStart2 (toString (min 59 (Gum.digitsToNat st.secondsInput))),
                   restSeconds := some total, panelOpen := true },
        notice := none, hapticLight := true }) := by
  subst htotal
  constructor
  · intro h
    simp only [Gum.startRestTimer, h]
    rw [if_pos (by omega)]
  · intro h
    simp only [Gum.startRestTimer]
    rw [if_neg (by omega)]

/-- Witness for C6: `start(0, 0)` leaves the timer idle with the
validation notice; `start(1, 30)` enters `running(90)`. -/
theorem startRestTimer_witness :
    Gum.startRestTimer { minutesInput := "0", secondsInput := "0",
                         restSeconds := none, panelOpen := false } =
      { panel := { minutesInput := "0", secondsInput := "0",
                   restSeconds := none, panelOpen := false },
        notice := some "Укажи время отдыха", hapticLight := false } ∧
    Gum.startRestTimer { minutesInput := "1", secondsInput := "30",
                         restSeconds := none, panelOpen := false } =
      { panel := { minutesInput := "1", secondsInput := "30",
                   restSeconds := some 90, panelOpen := true },
        notice := none, hapticLight := true } := by
  constructor
  · exact (startRestTimer_clamps_and_validates _ 0 (by decide)).1 rfl
  · exact (startRestTimer_clamps_and_validates _ 90 (by decide)).2 (by decide)

/-- C7: While running, each one-second tick decrements the remaining
seconds by 1 (with no event); from `running(n)` the timer reaches `idle`
after `n` ticks having fired exactly one expiry notification/haptic, and
any further ticks change nothing and fire nothing (no double-fire);
`stop()` mid-countdown goes to `idle` immediately with zero events, and a
stale tick on an idle timer does nothing. -/
theorem restTimer_tick_expiry_stop (n c m extra : Nat) :
    (2 ≤ m → Gum.restTick { restSeconds := some m, firedCount := c } =
      { restSeconds := some (m - 1), firedCount := c }) ∧
    (1 ≤ n → Gum.restTick^[n + extra] { restSeconds := some n, firedCount := c } =
      { restSeconds := none, firedCount := c + 1 }) ∧
    Gum.stopRestTimer { restSeconds := some n, firedCount := c } =
      { restSeconds := none, firedCount := c } ∧
    Gum.restTick { restSeconds := none, firedCount := c } =
      { restSeconds := none, firedCount := c } := by
  refine ⟨?_, ?_, rfl, rfl⟩
  · intro h
    simp only [Gum.restTick]
    rw [if_neg (by omega)]
  · intro h
    rw [Nat.add_comm, Function.iterate_add_apply, restTick_countdown n c h,
      restTick_iterate_idle]

/-- Witness for C7: from `running(90)`, after 90 ticks (and 3 more stale
ones) the timer is idle with exactly one expiry fired; a tick at 5
seconds decrements to 4; stop is silent. -/
theorem restTimer_witness :
    Gum.restTick { restSeconds := some 5, firedCount := 0 } =
      { restSeconds := some 4, firedCount := 0 } ∧
    Gum.restTick^[93] { restSeconds := some 90, firedCount := 0 } =
      { restSeconds := none, firedCount := 1 } := by
  have h := restTimer_tick_expiry_stop 90 0 5 3
  exact ⟨h.1 (by decide), h.2.1 (by decide)⟩

/-- C9: The measurement history never exceeds 40 entries — an addition
from a state with at most 40 entries leaves at most 40 (`slice(0, 40)`)
and a rejected addition (all fields empty) leaves the profile unchanged —
and the most recently added entry is always at index 0. -/
theorem addMeasurement_capped_newest_first (gen : Nat → String)
    (today : String) (p : Gum.ProfileState) (k : Nat) :
    (p.measurements.length ≤ 40 →
      ((Gum.addMeasurement gen today p k).1).measurements.length ≤ 40) ∧
    (Gum.profileAllEmpty p = false →
      ((Gum.addMeasurement gen today p k).1).measurements.head? =
        some (Gum.measurementEntryOf gen k today p) ∧
      ((Gum.addMeasurement gen today p k).1).measurements.length ≤ 40) ∧
    (Gum.profileAllEmpty p = true → (Gum.addMeasurement gen today p k).1 = p) := by
  by_cases hempty : Gum.profileAllEmpty p = true
  · refine ⟨?_, ?_, ?_⟩
    · intro h
      simp [Gum.addMeasurement, hempty]
      exact h
    · intro h; rw [hempty] at h; cases h
    · intro _; simp [Gum.addMeasurement, hempty]
  · have hne : Gum.profileAllEmpty p = false := by
      cases hpe : Gum.profileAllEmpty p
      · rfl
      · exact absurd hpe hempty
    have hlen : ((Gum.addMeasurement gen today p k).1).measurements.length ≤ 40 := by
      simp [Gum.addMeasurement, hne, List.length_take]
    refine ⟨fun _ => hlen, fun _ => ⟨?_, hlen⟩, fun h => absurd h hempty⟩
    simp [Gum.addMeasurement, hne]

/-- Witness for C9: adding a measurement with height "170" to an empty
profile puts the new entry at index 0. -/
theorem addMeasurement_witness :
    ((Gum.addMeasurement gen0 "01.01"
        { height := "170", weight := "", chest := "", waist := "",
          glutes := "", thighs := "", belly := "", measurements := [] }
        0).1).measurements.head? =
      some (Gum.measurementEntryOf gen0 0 "01.01"
        { height := "170", weight := "", chest := "", waist := "",
          glutes := "", thighs := "", belly := "", measurements := [] }) :=
  ((addMeasurement_capped_newest_first gen0 "01.01" _ 0).2.1 (by decide)).1

/-- After the accordion toggle, every non-targeted exercise is
collapsed. -/
theorem toggleExercise_no_match_collapsed (l : List Gum.SessionExercise)
    (tid : String) (h : ∀ e ∈ l, e.id ≠ tid) :
    (Gum.toggleExercise l tid).countP (·.expanded) = 0 := by
  rw [List.countP_eq_zero]
  intro e he
  simp only [Gum.toggleExercise, List.mem_map] at he
  obtain ⟨a, ha, rfl⟩ := he
  rw [if_neg (h a ha)]
  cases hexp : a.expanded
  · simp [hexp]
  · simp [hexp]

/-- With pairwise-distinct exercise ids, at most one exercise is expanded
after a toggle. -/
theorem toggleExercise_countP_le_one :
    ∀ (l : List Gum.SessionExercise) (tid : String),
      (l.map (·.id)).Nodup →
      (Gum.toggleExercise l tid).countP (·.expanded) ≤ 1 := by
  intro l
  induction l with
  | nil => intro tid _; simp [Gum.toggleExercise]
  | cons a as ih =>
    intro tid hnodup
    rw [List.map_cons, List.nodup_cons] at hnodup
    obtain ⟨hnotin, hnd⟩ := hnodup
    simp only [Gum.toggleExercise, List.map_cons, List.countP_cons]
    by_cases hid : a.id = tid
    · have htail : (Gum.toggleExercise as tid).countP (·.expanded) = 0 := by
        apply toggleExercise_no_match_collapsed
        intro e he heq
        exact hnotin (by rw [hid, ← heq]; exact List.mem_map_of_mem (·.id) he)
      simp only [Gum.toggleExercise] at htail
      rw [htail]
      have hhead : (if a.id = tid then { a with expanded := !a.expanded }
          else if !a.expanded then a else { a with expanded := false }) =
          { a with expanded := !a.expanded } := if_pos hid
      rw [hhead]
      cases a.expanded <;> simp
    · have hhead : ¬((if a.id = tid then { a with expanded := !a.expanded }
          else if !a.expanded then a
          else { a with expanded := false }).expanded = true) := by
        rw [if_neg hid]
        cases hexp : a.expanded
        · simp [hexp]
        · simp [hexp]
      rw [if_neg hhead, Nat.add_zero]
      have := ih tid hnd
      simpa [Gum.toggleExercise] using this

/-- C10: The accordion behavior of `toggleExercise`: the result is the
input list with the targeted exercise's `expanded` flag flipped and every
other exercise collapsed, so (when exercise ids are pairwise distinct, as
the id generator guarantees) at most one exercise is expanded
afterwards. -/
theorem toggleExercise_accordion (exercises : List Gum.SessionExercise)
    (exerciseId : String) :
    Gum.toggleExercise exercises exerciseId =
      exercises.map (fun e =>
        if e.id = exerciseId then { e with expanded := !e.expanded }
        else { e with expanded := false }) ∧
    ((exercises.map (·.id)).Nodup →
      (Gum.toggleExercise exercises exerciseId).countP (·.expanded) ≤ 1) := by
  constructor
  · unfold Gum.toggleExercise
    apply List.map_congr_left
    intro e _
    by_cases h : e.id = exerciseId
    · simp [h]
    · rw [if_neg h, if_neg h]
      cases hexp : e.expanded
      · cases e with
        | mk id name note expanded sets =>
          simp only at hexp
          subst hexp
          simp
      · simp [hexp]
  · exact toggleExercise_countP_le_one exercises exerciseId

/-- A list of exercises all satisfying the sets invariant (≥1 set, all
sets sanitized). -/
def ListSetsWF (l : List Gum.SessionExercise) : Prop :=
  ∀ e ∈ l, Gum.ExerciseSetsWF e

instance (l : List Gum.SessionExercise) : Decidable (ListSetsWF l) := by
  unfold ListSetsWF; infer_instance

theorem setFieldUpdate_wf (field : Gum.SetField) (value : String)
    (s : Gum.WorkoutSet) (hs : Gum.SetWF s) :
    Gum.SetWF (Gum.setFieldUpdate field (Gum.sanitizeDigits value 3) s) := by
  obtain ⟨hw, hr, hsp, hds⟩ := hs
  cases field with
  | weight => exact ⟨Gum.sanitizeDigits_digitCap value 3, hr, hsp, hds⟩
  | reps => exact ⟨hw, Gum.sanitizeDigits_digitCap value 3, hsp, hds⟩
  | speed => exact ⟨hw, hr, Gum.sanitizeDigits_digitCap value 3, hds⟩

theorem updateSetValue_wf (exercises : List Gum.SessionExercise)
    (exerciseId setId : String) (field : Gum.SetField) (value : String)
    (h : ListSetsWF exercises) :
    ListSetsWF (Gum.updateSetValue exercises exerciseId setId field value) := by
  intro e he
  simp only [Gum.updateSetValue, List.mem_map] at he
  obtain ⟨a, ha, rfl⟩ := he
  obtain ⟨hanil, hasets⟩ := h a ha
  split
  · exact ⟨hanil, hasets⟩
  · constructor
    · simpa using hanil
    · intro s hs
      simp only [List.mem_map] at hs
      obtain ⟨s0, hs0, rfl⟩ := hs
      split
      · exact setFieldUpdate_wf field value s0 (hasets s0 hs0)
      · exact hasets s0 hs0

theorem addSet_wf (gen : Nat → String) (exerciseId : String) :
    ∀ (exercises : List Gum.SessionExercise) (k : Nat),
      ListSetsWF exercises →
      ListSetsWF (Gum.addSet gen exerciseId exercises k).1 := by
  intro exercises
  induction exercises with
  | nil => intro k _ e he; simp [Gum.addSet] at he
  | cons a as ih =>
    intro k h e he
    have ha := h a (by simp)
    have has : ListSetsWF as := fun e he => h e (by simp [he])
    simp only [Gum.addSet] at he
    split at he
    · rcases List.mem_cons.mp he with rfl | hmem
      · refine ⟨by simp, ?_⟩
        intro s hs
        rcases List.mem_append.mp hs with hs | hs
        · exact ha.2 s hs
        · rw [List.mem_singleton.mp hs]
          exact Gum.createSet_wf gen "" "" [] "" k (by intro d hd; simp at hd)
      · exact ih _ has e hmem
    · rcases List.mem_cons.mp he with rfl | hmem
      · exact ha
      · exact ih _ has e hmem

theorem filter_ne_setId_nonempty (sets : List Gum.WorkoutSet) (setId : String)
    (hlen : 2 ≤ sets.length) (hnd : (sets.map (·.id)).Nodup) :
    sets.filter (fun s => s.id ≠ setId) ≠ [] := by
  intro hempty
  rw [List.filter_eq_nil_iff] at hempty
  match sets, hlen, hnd, hempty with
  | a :: b :: rest, _, hnd, hempty =>
    have ha : a.id = setId := by
      have := hempty a (by simp)
      simpa using this
    have hb : b.id = setId := by
      have := hempty b (by simp)
      simpa using this
    rw [List.map_cons, List.nodup_cons] at hnd
    have hmem : b.id ∈ (b :: rest).map (·.id) :=
      List.mem_map_of_mem (·.id) (List.mem_cons_self b rest)
    exact hnd.1 (by rw [ha, ← hb]; exact hmem)

theorem removeSet_wf (exercises : List Gum.SessionExercise)
    (exerciseId setId : String) (h : ListSetsWF exercises)
    (hids : ∀ e ∈ exercises, (e.sets.map (·.id)).Nodup) :
    ListSetsWF (Gum.removeSet exercises exerciseId setId).1 := by
  intro e he
  simp only [Gum.removeSet, List.mem_map] at he
  obtain ⟨a, ha, rfl⟩ := he
  obtain ⟨hanil, hasets⟩ := h a ha
  split
  · exact ⟨hanil, hasets⟩
  · split
    · exact ⟨hanil, hasets⟩
    · next hgt =>
      constructor
      · simp only
        apply filter_ne_setId_nonempty a.sets setId (by omega) (hids a ha)
      · intro s hs
        simp only [List.mem_filter] at hs
        exact hasets s hs.1

/-- C3: Every exercise in any loaded or created state has at least one
set, and every set has digits-only, length-capped weight/reps (and speed
and drop-set) strings; the invariant is established by `loadSessionByPlan`
and `createExercise` (given sanitized input sets, as all its call sites
pass) and preserved by `addSet`, `removeSet` (whose one-set guard needs
the sets' ids pairwise distinct, as the id generator guarantees) and
`updateSetValue`. -/
theorem session_sets_invariant :
    (∀ (gen : Nat → String) (raw : Gum.RawSession) (k : Nat),
      ListSetsWF (Gum.loadSessionByPlan gen raw k).1.upper ∧
      ListSetsWF (Gum.loadSessionByPlan gen raw k).1.lower ∧
      ListSetsWF (Gum.loadSessionByPlan gen raw k).1.fullbody ∧
      ListSetsWF (Gum.loadSessionByPlan gen raw k).1.cardio ∧
      ListSetsWF (Gum.loadSessionByPlan gen raw k).1.custom) ∧
    (∀ (gen : Nat → String) (name : String) (sets : List Gum.WorkoutSet)
      (note : String) (k : Nat), (∀ s ∈ sets, Gum.SetWF s) →
      Gum.ExerciseSetsWF (Gum.createExercise gen name sets note k).1) ∧
    (∀ (gen : Nat → String) (exerciseId : String)
      (exercises : List Gum.SessionExercise) (k : Nat),
      ListSetsWF exercises →
      ListSetsWF (Gum.addSet gen exerciseId exercises k).1) ∧
    (∀ (exercises : List Gum.SessionExercise) (exerciseId setId : String),
      ListSetsWF exercises → (∀ e ∈ exercises, (e.sets.map (·.id)).Nodup) →
      ListSetsWF (Gum.removeSet exercises exerciseId setId).1) ∧
    (∀ (exercises : List Gum.SessionExercise) (exerciseId setId : String)
      (field : Gum.SetField) (value : String), ListSetsWF exercises →
      ListSetsWF (Gum.updateSetValue exercises exerciseId setId field value)) := by
  refine ⟨?_, ?_, ?_, ?_, ?_⟩
  · intro gen raw k
    have h := Gum.loadSessionByPlan_wf gen raw k
    exact ⟨fun e he => (h.1 e he).2.2, fun e he => (h.2.1 e he).2.2,
      fun e he => (h.2.2.1 e he).2.2, fun e he => (h.2.2.2.1 e he).2.2,
      fun e he => (h.2.2.2.2 e he).2.2⟩
  · intro gen name sets note k hsets
    unfold Gum.createExercise
    split
    · next hpos =>
      exact ⟨by rintro rfl; simp at hpos, hsets⟩
    · refine ⟨by simp, ?_⟩
      intro s hs
      rw [List.mem_singleton.mp hs]
      exact Gum.createSet_wf gen "" "" [] "" (k + 1) (by intro d hd; simp at hd)
  · exact fun gen exerciseId exercises k h => addSet_wf gen exerciseId exercises k h
  · exact fun exercises exerciseId setId h hids =>
      removeSet_wf exercises exerciseId setId h hids
  · exact fun exercises exerciseId setId field value h =>
      updateSetValue_wf exercises exerciseId setId field value h

/-- Witness for C3: the invariant conjuncts applied at concrete inputs —
`removeSet` on a two-set exercise keeps one set well-formed, and
`createExercise` on an empty set list produces the single empty set. -/
theorem session_sets_invariant_witness :
    ListSetsWF (Gum.removeSet
      [{ id := "e1", name := "x", note := "", expanded := false,
         sets := [{ id := "s1", weight := "50", reps := "10", speed := "",
                    dropSets := [] },
                  { id := "s2", weight := "60", reps := "8", speed := "",
                    dropSets := [] }] }] "e1" "s2").1 ∧
    Gum.ExerciseSetsWF (Gum.createExercise gen0 "Жим ногами" [] "" 0).1 := by
  constructor
  · exact session_sets_invariant.2.2.2.1 _ "e1" "s2" (by decide) (by decide)
  · exact session_sets_invariant.2.1 gen0 "Жим ногами" [] "" 0
      (by intro s hs; simp at hs)

theorem normalizeExercise_dropped (gen : Nat → String) (v : Gum.JsValue)
    (k : Nat) (h : Gum.droppedByNormalize v = true) :
    Gum.normalizeExercise gen v k = (none, k) := by
  unfold Gum.droppedByNormalize at h
  unfold Gum.normalizeExercise
  cases hpo : Gum.parseObject v with
  | none => simp
  | some fields =>
    rw [hpo] at h
    simp only [beq_iff_eq] at h
    simp [h]

theorem normalizeExercisesList_drops (gen : Nat → String)
    (ys : List Gum.JsValue) (v : Gum.JsValue)
    (h : Gum.droppedByNormalize v = true) :
    ∀ (xs : List Gum.JsValue) (k : Nat),
      Gum.normalizeExercisesList gen (xs ++ v :: ys) k =
        Gum.normalizeExercisesList gen (xs ++ ys) k := by
  intro xs
  induction xs with
  | nil =>
    intro k
    simp only [List.nil_append, Gum.normalizeExercisesList,
      normalizeExercise_dropped gen v k h]
  | cons x xs ih =>
    intro k
    simp only [List.cons_append, Gum.normalizeExercisesList, List.append_eq]
    rw [ih]

theorem normalizeExerciseV4_dropped (gen : Nat → String) (v : Gum.JsValue)
    (k : Nat) (h : GumV4.usableName v = "") :
    GumV4.normalizeExercise gen v k = (none, k) := by
  unfold GumV4.normalizeExercise
  simp [h]

theorem normalizeExercisesListV4_drops (gen : Nat → String)
    (ys : List Gum.JsValue) (v : Gum.JsValue) (h : GumV4.usableName v = "") :
    ∀ (xs : List Gum.JsValue) (k : Nat),
      GumV4.normalizeExercisesList gen (xs ++ v :: ys) k =
        GumV4.normalizeExercisesList gen (xs ++ ys) k := by
  intro xs
  induction xs with
  | nil =>
    intro k
    simp only [List.nil_append, GumV4.normalizeExercisesList,
      normalizeExerciseV4_dropped gen v k h]
  | cons x xs ih =>
    intro k
    simp only [List.cons_append, GumV4.normalizeExercisesList, List.append_eq]
    rw [ih]

/-- Counterexample for C5: the claim asserts unusable-name elements are
always dropped during per-element normalization, but the part_000
revision's `loadSession` normalization (src/unnamed/part_000:194-217)
does not drop an element without a usable name — it keeps it under the
placeholder name "Упражнение". Had the element been dropped, the
resulting list would be empty. -/
theorem normalize_placeholder_kept :
    ((GumV3.normalizeSession gen0
        [Gum.JsValue.obj [("sets", Gum.JsValue.arr
          [Gum.JsValue.obj [("weight", Gum.JsValue.str "40"),
                            ("reps", Gum.JsValue.str "12")]])]] 0).1).map
      (fun e => e.name) = ["Упражнение"] := by
  decide

/-- C5 amended: in the richer revisions' `normalizeExercises` —
src/src/App.tsx (name trimmed, capped at 90 chars) and
src/unnamed/part_001 (capped at 80) — an element that is not a plain
object or lacks a usable non-empty name is dropped entirely from the
result, not replaced by a placeholder; the earliest revision
(src/unnamed/part_000) instead substitutes the placeholder exercise name
"Упражнение". -/
theorem normalize_drops_unusable (gen : Nat → String) (k : Nat)
    (xs ys : List Gum.JsValue) (v : Gum.JsValue) :
    (Gum.droppedByNormalize v = true →
      Gum.normalizeExercisesList gen (xs ++ v :: ys) k =
        Gum.normalizeExercisesList gen (xs ++ ys) k) ∧
    (GumV4.usableName v = "" →
      GumV4.normalizeExercisesList gen (xs ++ v :: ys) k =
        GumV4.normalizeExercisesList gen (xs ++ ys) k) :=
  ⟨fun h => normalizeExercisesList_drops gen ys v h xs k,
   fun h => normalizeExercisesListV4_drops gen ys v h xs k⟩

/-- Witness for C5 (amended): a numeric element (not a plain object, no
name) is dropped by both richer revisions. -/
theorem normalize_drops_unusable_witness :
    Gum.normalizeExercisesList gen0 [Gum.JsValue.num 5] 0 =
      Gum.normalizeExercisesList gen0 [] 0 ∧
    GumV4.normalizeExercisesList gen0 [Gum.JsValue.num 5] 0 =
      GumV4.normalizeExercisesList gen0 [] 0 := by
  have h := normalize_drops_unusable gen0 0 [] [] (Gum.JsValue.num 5)
  exact ⟨h.1 (by decide), h.2 (by decide)⟩

theorem if_length_pos (l : List Gum.DropSet) :
    (if l.length > 0 then l else []) = l := by
  cases l <;> simp

theorem normalizeDropSet_roundtrip (gen : Nat → String) (d : Gum.DropSet)
    (hd : Gum.DropSetCanon d) (k : Nat) :
    Gum.normalizeDropSet gen (Gum.dropSetToJs d) k =
      (some { id := gen k, weight := d.weight, reps := d.reps }, k + 1) := by
  have h1 : Gum.normalizeDropSet gen (Gum.dropSetToJs d) k =
      (some { id := gen k, weight := Gum.sanitizeDigits d.weight 3,
              reps := Gum.sanitizeDigits d.reps 2 }, k + 1) := rfl
  rw [h1, hd.1, hd.2]

theorem normalizeDropSets_roundtrip (gen : Nat → String) :
    ∀ (ds : List Gum.DropSet) (k : Nat), (∀ d ∈ ds, Gum.DropSetCanon d) →
      ∃ ds' k', Gum.normalizeDropSets gen (ds.map Gum.dropSetToJs) k = (ds', k') ∧
        ds'.map Gum.eraseDropSetId = ds.map Gum.eraseDropSetId := by
  intro ds
  induction ds with
  | nil => intro k _; exact ⟨[], k, rfl, rfl⟩
  | cons d ds ih =>
    intro k h
    obtain ⟨rest', k2, hrest, herest⟩ := ih (k + 1) (fun x hx => h x (by simp [hx]))
    refine ⟨{ id := gen k, weight := d.weight, reps := d.reps } :: rest', k2, ?_, ?_⟩
    · simp only [List.map_cons, Gum.normalizeDropSets,
        normalizeDropSet_roundtrip gen d (h d (by simp)) k, hrest]
    · simp only [List.map_cons, herest]
      rfl

theorem normalizeSet_roundtrip (gen : Nat → String) (s : Gum.WorkoutSet)
    (hs : Gum.SetCanon s) (k : Nat) :
    ∃ s' k', Gum.normalizeSet gen (Gum.setToJs s) k = (some s', k') ∧
      Gum.eraseSetId s' = Gum.eraseSetId s := by
  obtain ⟨hw, hr, hsp, hds⟩ := hs
  obtain ⟨ds', k1, hnds, heds⟩ := normalizeDropSets_roundtrip gen s.dropSets k hds
  have h1 : Gum.normalizeSet gen (Gum.setToJs s) k =
      (some { id := gen (Gum.normalizeDropSets gen (s.dropSets.map Gum.dropSetToJs) k).2,
              weight := Gum.sanitizeDigits s.weight 3,
              reps := Gum.sanitizeDigits s.reps 3,
              speed := Gum.sanitizeDigits s.speed 3,
              dropSets :=
                if (Gum.normalizeDropSets gen (s.dropSets.map Gum.dropSetToJs) k).1.length > 0
                then (Gum.normalizeDropSets gen (s.dropSets.map Gum.dropSetToJs) k).1
                else [] },
       (Gum.normalizeDropSets gen (s.dropSets.map Gum.dropSetToJs) k).2 + 1) := rfl
  rw [hnds] at h1
  simp only [if_length_pos] at h1
  refine ⟨_, _, h1, ?_⟩
  simp only [Gum.eraseSetId, hw, hr, hsp, heds]

theorem normalizeSets_roundtrip (gen : Nat → String) :
    ∀ (sets : List Gum.WorkoutSet) (k : Nat), (∀ s ∈ sets, Gum.SetCanon s) →
      ∃ sets' k', Gum.normalizeSets gen (sets.map Gum.setToJs) k = (sets', k') ∧
        sets'.map Gum.eraseSetId = sets.map Gum.eraseSetId := by
  intro sets
  induction sets with
  | nil => intro k _; exact ⟨[], k, rfl, rfl⟩
  | cons s sets ih =>
    intro k h
    obtain ⟨s', k1, hns, hes⟩ := normalizeSet_roundtrip gen s (h s (by simp)) k
    obtain ⟨rest', k2, hrest, herest⟩ := ih k1 (fun x hx => h x (by simp [hx]))
    refine ⟨s' :: rest', k2, ?_, ?_⟩
    · simp only [List.map_cons, Gum.normalizeSets, hns, hrest]
    · simp only [List.map_cons, hes, herest]

theorem normalizeExercise_roundtrip (gen : Nat → String)
    (e : Gum.SessionExercise) (he : Gum.ExerciseCanon e) (k : Nat) :
    ∃ e' k', Gum.normalizeExercise gen (Gum.exerciseToJs e) k = (some e', k') ∧
      Gum.eraseExerciseId e' = Gum.eraseExerciseId e := by
  obtain ⟨hname90, hnameNe, hcanon, hnote, hsetsne, hsets⟩ := he
  obtain ⟨sets', k1, hns, hesets⟩ := normalizeSets_roundtrip gen e.sets k hsets
  have hlen : sets'.length = e.sets.length := by
    have := congrArg List.length hesets
    simpa using this
  have hpos : sets'.length > 0 := by
    rw [hlen]
    exact List.length_pos.mpr hsetsne
  have h1 : Gum.normalizeExercise gen (Gum.exerciseToJs e) k =
      (if Gum.strTake (Gum.strTrim e.name) 90 = "" then (none, k)
       else if (Gum.normalizeSets gen (e.sets.map Gum.setToJs) k).1.length > 0 then
         (some { id := gen (Gum.normalizeSets gen (e.sets.map Gum.setToJs) k).2,
                 name := (Gum.getExerciseDefinition (Gum.strTake (Gum.strTrim e.name) 90)).getD
                   (Gum.strTake (Gum.strTrim e.name) 90),
                 note := Gum.strTake e.note 140,
                 expanded := e.expanded,
                 sets := (Gum.normalizeSets gen (e.sets.map Gum.setToJs) k).1 },
          (Gum.normalizeSets gen (e.sets.map Gum.setToJs) k).2 + 1)
       else
         (some { id := gen (Gum.normalizeSets gen (e.sets.map Gum.setToJs) k).2,
                 name := (Gum.getExerciseDefinition (Gum.strTake (Gum.strTrim e.name) 90)).getD
                   (Gum.strTake (Gum.strTrim e.name) 90),
                 note := Gum.strTake e.note 140,
                 expanded := e.expanded,
                 sets := [(Gum.createSet gen "" "" [] ""
                   ((Gum.normalizeSets gen (e.sets.map Gum.setToJs) k).2 + 1)).1] },
          (Gum.createSet gen "" "" [] ""
            ((Gum.normalizeSets gen (e.sets.map Gum.setToJs) k).2 + 1)).2)) := rfl
  rw [hname90, hns] at h1
  simp only [if_neg hnameNe, hpos, if_pos, hcanon, hnote] at h1
  refine ⟨_, _, h1, ?_⟩
  simp only [Gum.eraseExerciseId, hesets]

theorem normalizeExercisesList_roundtrip (gen : Nat → String) :
    ∀ (l : List Gum.SessionExercise) (k : Nat), (∀ e ∈ l, Gum.ExerciseCanon e) →
      ∃ l' k', Gum.normalizeExercisesList gen (l.map Gum.exerciseToJs) k = (l', k') ∧
        l'.map Gum.eraseExerciseId = l.map Gum.eraseExerciseId := by
  intro l
  induction l with
  | nil => intro k _; exact ⟨[], k, rfl, rfl⟩
  | cons e l ih =>
    intro k h
    obtain ⟨e', k1, hne, hee⟩ := normalizeExercise_roundtrip gen e (h e (by simp)) k
    obtain ⟨rest', k2, hrest, herest⟩ := ih k1 (fun x hx => h x (by simp [hx]))
    refine ⟨e' :: rest', k2, ?_, ?_⟩
    · simp only [List.map_cons, Gum.normalizeExercisesList, hne, hrest]
    · simp only [List.map_cons, hee, herest]

/-- The spec's example persisted blob: one upper exercise with a catalog
name and one sanitized set. -/
def exampleBlob : Gum.JsValue :=
  .obj [("upper", .arr [.obj [("name", .str "Жим штанги лежа"),
        ("sets", .arr [.obj [("weight", .str "40"), ("reps", .str "12")]])]])]

/-- A validly-constructed in-memory state: the result of loading
`exampleBlob` (consuming ids 0 and 1 of the supply). -/
def exampleState : Gum.SessionByPlan :=
  (Gum.loadSessionByPlan gen0 (.value exampleBlob) 0).1

/-- Counterexample for C4: the round trip is not the identity, because
`normalizeExercises` regenerates every exercise and set id through
`createId()` (App.tsx:315, App.tsx:245 via `createSet`). Loading the
serialization of the validly-constructed `exampleState` with the id
supply continuing after the ids already drawn yields fresh ids "id-2"
and "id-3" in place of "id-0" and "id-1", so the result differs from the
original state. -/
theorem load_serialize_not_identity :
    (Gum.loadSessionByPlan gen0
      (Gum.RawSession.value (Gum.sessionToJs exampleState)) 2).1 ≠
      exampleState := by
  decide

/-- C4 amended: for every canonical in-memory state (sanitized set
fields, non-empty trim-stable 90-char-capped canonical names, capped
notes, at least one set per exercise — exactly the shape `load` and the
in-app constructors produce), loading the serialization reproduces the
state up to the freshly regenerated ids: after erasing ids the round trip
is the identity, for every id supply and every supply position. -/
theorem load_serialize_roundtrip_up_to_ids (gen : Nat → String)
    (S : Gum.SessionByPlan) (hS : Gum.SessionCanon S) (k : Nat) :
    Gum.eraseIds (Gum.loadSessionByPlan gen
      (Gum.RawSession.value (Gum.sessionToJs S)) k).1 = Gum.eraseIds S := by
  obtain ⟨hu, hl, hf, hc, hcu⟩ := hS
  obtain ⟨u', k1, hnu, heu⟩ := normalizeExercisesList_roundtrip gen S.upper k hu
  obtain ⟨l', k2, hnl, hel⟩ := normalizeExercisesList_roundtrip gen S.lower k1 hl
  obtain ⟨f', k3, hnf, hef⟩ := normalizeExercisesList_roundtrip gen S.fullbody k2 hf
  obtain ⟨c', k4, hnc, hec⟩ := normalizeExercisesList_roundtrip gen S.cardio k3 hc
  obtain ⟨cu', k5, hncu, hecu⟩ :=
    normalizeExercisesList_roundtrip gen S.custom k4 hcu
  have h1 : Gum.loadSessionByPlan gen
      (Gum.RawSession.value (Gum.sessionToJs S)) k =
      ({ upper := (Gum.normalizeExercisesList gen (S.upper.map Gum.exerciseToJs) k).1,
         lower := (Gum.normalizeExercisesList gen (S.lower.map Gum.exerciseToJs)
           (Gum.normalizeExercisesList gen (S.upper.map Gum.exerciseToJs) k).2).1,
         fullbody := (Gum.normalizeExercisesList gen (S.fullbody.map Gum.exerciseToJs)
           (Gum.normalizeExercisesList gen (S.lower.map Gum.exerciseToJs)
             (Gum.normalizeExercisesList gen (S.upper.map Gum.exerciseToJs) k).2).2).1,
         cardio := (Gum.normalizeExercisesList gen (S.cardio.map Gum.exerciseToJs)
           (Gum.normalizeExercisesList gen (S.fullbody.map Gum.exerciseToJs)
             (Gum.normalizeExercisesList gen (S.lower.map Gum.exerciseToJs)
               (Gum.normalizeExercisesList gen (S.upper.map Gum.exerciseToJs) k).2).2).2).1,
         custom := (Gum.normalizeExercisesList gen (S.custom.map Gum.exerciseToJs)
           (Gum.normalizeExercisesList gen (S.cardio.map Gum.exerciseToJs)
             (Gum.normalizeExercisesList gen (S.fullbody.map Gum.exerciseToJs)
               (Gum.normalizeExercisesList gen (S.lower.map Gum.exerciseToJs)
                 (Gum.normalizeExercisesList gen (S.upper.map Gum.exerciseToJs) k).2).2).2).2).1 },
       (Gum.normalizeExercisesList gen (S.custom.map Gum.exerciseToJs)
         (Gum.normalizeExercisesList gen (S.cardio.map Gum.exerciseToJs)
           (Gum.normalizeExercisesList gen (S.fullbody.map Gum.exerciseToJs)
             (Gum.normalizeExercisesList gen (S.lower.map Gum.exerciseToJs)
               (Gum.normalizeExercisesList gen (S.upper.map Gum.exerciseToJs) k).2).2).2).2).2) := rfl
  rw [h1]
  simp only [hnu, hnl, hnf, hnc, hncu]
  simp only [Gum.eraseIds, heu, hel, hef, hec, hecu]

/-- Witness for C4 (amended): the round trip on `exampleState` (which is
canonical, by evaluation) with fresh ids is the identity after id
erasure. -/
theorem load_serialize_roundtrip_witness :
    Gum.eraseIds (Gum.loadSessionByPlan gen0
      (Gum.RawSession.value (Gum.sessionToJs exampleState)) 2).1 =
      Gum.eraseIds exampleState :=
  load_serialize_roundtrip_up_to_ids gen0 exampleState (by decide) 2

/-- Counterexample for C8: in the current revision (src/src/App.tsx:1191)
`addSet` does not inherit the previous set's weight/reps: on an exercise
whose last (only) set is {weight "50", reps "10"}, the appended set has
weight "" and reps "" (and the function triggers no haptic and no
rest-timer start — it only updates the exercise list). -/
theorem addSet_no_copy_forward :
    ((Gum.addSet gen0 "e1"
        [{ id := "e1", name := "Жим лежа", note := "", expanded := false,
           sets := [{ id := "s1", weight := "50", reps := "10", speed := "",
                      dropSets := [] }] }] 0).1).map
      (fun e => e.sets.map fun s => (s.weight, s.reps)) =
      [[("50", "10"), ("", "")]] := by
  decide

/-- C8 amended: in the part_001 revision (src/unnamed/part_001:343-361),
adding a set to an exercise whose sets end in a last set copies that
set's weight and reps forward (through the sanitizer) into the new set,
expands the exercise, and triggers exactly one "light" haptic and one
rest-timer start at 90 seconds; in the current src/src/App.tsx revision,
`addSet` instead appends an empty set with no haptic and no rest-timer
start. -/
theorem addSetV4_copy_forward (gen : Nat → String) (k : Nat)
    (e : GumV4.SessionExercise) (pre : List GumV4.WorkoutSet)
    (l : GumV4.WorkoutSet) (hsets : e.sets = pre ++ [l]) :
    GumV4.addSet gen [e] e.id k =
      ({ exercises := [{ e with
                         expanded := true,
                         sets := pre ++ [l] ++
                           [{ id := gen k,
                              weight := Gum.sanitizeDigits l.weight 3,
                              reps := Gum.sanitizeDigits l.reps 2 }] }],
         restSeconds := some 90,
         notice := "Подход добавлен • отдых 01:30",
         hapticLight := 1 }, k + 1) := by
  simp only [GumV4.addSet, GumV4.addSetList, if_pos rfl, hsets,
    List.getLast?_concat, GumV4.createSet]
  constructor

/-- Witness for C8 (amended): part_001's `addSet` on an exercise with
last set {weight "50", reps "10"} appends a set inheriting "50"/"10",
starts the 90-second rest timer and fires one "light" haptic. -/
theorem addSetV4_copy_forward_witness :
    GumV4.addSet gen0
      [{ id := "e1", name := "Жим лежа", expanded := false,
         sets := [{ id := "s1", weight := "50", reps := "10" }] }] "e1" 0 =
      ({ exercises := [{ id := "e1", name := "Жим лежа", expanded := true,
                         sets := [{ id := "s1", weight := "50", reps := "10" },
                                  { id := "id-0", weight := "50", reps := "10" }] }],
         restSeconds := some 90,
         notice := "Подход добавлен • отдых 01:30",
         hapticLight := 1 }, 1) := by
  have h := addSetV4_copy_forward gen0 0
    { id := "e1", name := "Жим лежа", expanded := false,
      sets := [{ id := "s1", weight := "50", reps := "10" }] }
    [] { id := "s1", weight := "50", reps := "10" } rfl
  rw [h]
  decide

/-- Witness for C10: toggling "a" in a two-exercise list where both are
expanded leaves at most one expanded. -/
theorem toggleExercise_witness :
    (Gum.toggleExercise
      [{ id := "a", name := "x", note := "", expanded := true, sets := [] },
       { id := "b", name := "y", note := "", expanded := true, sets := [] }]
      "a").countP (·.expanded) ≤ 1 :=
  (toggleExercise_accordion _ "a").2 (by decide)
